import Mathlib

/-!
Verification of the keyword dispatch and result-marshaling pipeline of
`robotremoteserver.py` (Robot Framework remote server).

The development is a shallow embedding of the Python source:

* Python text values are represented as lists of Unicode code points
  (`Str := List Nat`); byte strings as lists of byte values.
* The dynamically typed values the pipeline handles are the closed inductive
  `PyVal` (`None`, `str`, `bytes`, `int`, `bool`, `float`, `xmlrpc.client.Binary`,
  `list`, `dict`, plus non-iterable objects carrying their `str()` text).
* Raised Python exceptions are `PyExc` records carrying the data the pipeline
  inspects: the type name, whether the type is one of the module's
  `_generic_exceptions` (`AssertionError`, `RuntimeError`, `Exception`),
  the `str()` text of the instance, the `ROBOT_SUPPRESS_NAME` /
  `ROBOT_CONTINUE_ON_FAILURE` / `ROBOT_EXIT_ON_FAILURE` marker attributes and
  the formatted traceback frames.
* Fallible code (`_handle_binary_result` can raise `ValueError`) is modelled
  with `Except PyExc`.
* The interpreter is modelled as CPython 3 (`PY3 = True` in the source's
  version dispatch, `sys.platform != 'cli'`); `_contains_binary`, the one
  function whose body differs between the Python 2 and Python 3 branches,
  is parametrised by the `py3` flag so that both branches are covered.
-/

namespace RobotRemote

/-- Unicode code points of a Python `str` (or byte values of a `bytes`). -/
abbrev Str := List Nat

/-- Code points of a Lean string literal, used to write ASCII constants. -/
def slit (s : String) : Str := s.data.map Char.toNat

/-- Membership in the source's `BINARY` regex character class
`[\x00-\x08\x0B\x0C\x0E-\x1F]` (control characters other than
tab, newline and carriage return). -/
def isBinaryCtl (c : Nat) : Bool :=
  c ≤ 8 || c = 11 || c = 12 || (14 ≤ c && c ≤ 31)

/-- `BINARY.search(s)` succeeds: some character is in the binary class. -/
def hasBinaryCtl (s : Str) : Bool := s.any isBinaryCtl

/-- Membership in the source's `NON_ASCII` regex character class `[\x80-\xff]`. -/
def isNonAsciiByte (c : Nat) : Bool := 128 ≤ c && c ≤ 255

/-- `NON_ASCII.search(s)` succeeds. -/
def hasNonAscii (s : Str) : Bool := s.any isNonAsciiByte

/-- Every code point is ASCII, i.e. `s.encode('ASCII')` succeeds. -/
def allAscii (s : Str) : Bool := s.all (fun c => c < 128)

/-- The closed set of Python values flowing through the pipeline.
`pyNone` is `None`; `str`/`bytes` carry code points / byte values;
`pyBool` is separate from `pyInt` because `bool` values pass through
`_handle_return_value`'s `isinstance(ret, (int, long, float))` branch
unchanged (as booleans); `pyFloat` carries the `str()` text of the float,
which is all the pipeline ever looks at; `binary` is an
`xmlrpc.client.Binary` wrapper holding raw bytes; `obj` is any other
non-iterable object, carrying its `str()` text. -/
inductive PyVal where
  | pyNone
  | str (s : Str)
  | bytes (b : Str)
  | pyInt (n : Int)
  | pyBool (b : Bool)
  | pyFloat (s : Str)
  | binary (b : Str)
  | list (xs : List PyVal)
  | dict (kvs : List (PyVal × PyVal))
  | obj (s : Str)

/-- A raised Python exception, as observed by `KeywordResult`:
`typeName` is `exc_type.__name__`; `isGeneric` is
`exc_type in (AssertionError, RuntimeError, Exception)`;
`message` is `unicode(exc_value)` (under Python 3, `str()` of the instance);
`suppressName`, `robotContinue`, `robotExit` are the truth values of the
`ROBOT_SUPPRESS_NAME`, `ROBOT_CONTINUE_ON_FAILURE` and `ROBOT_EXIT_ON_FAILURE`
attributes; `tbFrames` are the formatted traceback entries
(`traceback.format_list(traceback.extract_tb(tb))`), the innermost dispatch
frame first. -/
structure PyExc where
  typeName : Str
  isGeneric : Bool
  message : Str
  suppressName : Bool := false
  robotContinue : Bool := false
  robotExit : Bool := false
  tbFrames : List Str := []

/-- Lower-case hexadecimal digit, for `repr`'s `\xhh` escapes. -/
def hexDigit (n : Nat) : Nat := if n < 10 then 48 + n else 87 + n

/-- Two hexadecimal digits of a byte value. -/
def hexByte (c : Nat) : Str := [hexDigit (c / 16 % 16), hexDigit (c % 16)]

/-- Model of how CPython `repr` renders one character of a `str`:
backslash and the quote are backslash-escaped, tab/newline/return become
`\t`/`\n`/`\r`, other control characters (and DEL) become `\xhh`, everything
else is kept verbatim.  (CPython additionally escapes unprintable characters
above `\x7f` and may switch to double quotes; neither refinement affects
anything the server does with the resulting text, which is only used inside
`ValueError` messages.) -/
def reprCharCodes (c : Nat) : Str :=
  if c = 92 then [92, 92]
  else if c = 39 then [92, 39]
  else if c = 9 then [92, 116]
  else if c = 10 then [92, 110]
  else if c = 13 then [92, 114]
  else if c < 32 || c = 127 then [92, 120] ++ hexByte c
  else [c]

/-- Model of CPython `repr` of a `str`: quoted, characters escaped. -/
def pyReprStr (s : Str) : Str := [39] ++ s.flatMap reprCharCodes ++ [39]

/-- Text of the source's `ValueError("Cannot represent %r as binary." % result)`. -/
def cannotRepresentMsg (s : Str) : Str :=
  slit "Cannot represent " ++ pyReprStr s ++ slit " as binary."

/-- The `ValueError` raised by `_handle_binary_result` when ASCII-encoding a
text value fails.  `ValueError` is not one of `_generic_exceptions`. -/
def valueErrorCannotRepresent (s : Str) : PyExc :=
  { typeName := slit "ValueError", isGeneric := false,
    message := cannotRepresentMsg s }

/-- `KeywordResult._contains_binary`, with the interpreter's version dispatch
made explicit.  Python 3 branch: `isinstance(result, bytes) or
BINARY.search(result)`.  Python 2 branch: `isinstance(result, bytes) and
NON_ASCII.search(result) or BINARY.search(result)`.  Only `str` and `bytes`
values ever reach this function. -/
def contains_binary (py3 : Bool) : PyVal → Bool
  | .bytes b => if py3 then true else (hasNonAscii b || hasBinaryCtl b)
  | .str s => hasBinaryCtl s
  | _ => false

/-- `KeywordResult._handle_binary_result` under Python 3: a value that
contains binary is wrapped as an `xmlrpc.client.Binary`; text is first
ASCII-encoded, and an encoding failure is re-raised as
`ValueError("Cannot represent %r as binary.")`.  The IronPython special case
(`sys.platform == 'cli'`) does not apply to the modelled CPython platform. -/
def handle_binary_result (v : PyVal) : Except PyExc PyVal :=
  if contains_binary true v = false then .ok v
  else match v with
    | .bytes b => .ok (.binary b)
    | .str s =>
        if allAscii s then .ok (.binary s)
        else .error (valueErrorCannotRepresent s)
    | w => .ok w

/-- Decimal digits of a natural number (fuel-structured so that the
definition reduces; `n + 1` fuel always suffices). -/
def natDigitsGo : Nat → Nat → Str
  | 0, _ => []
  | fuel + 1, n => if n < 10 then [48 + n] else natDigitsGo fuel (n / 10) ++ [48 + n % 10]

/-- Decimal rendering of a natural number. -/
def natDigitsStr (n : Nat) : Str := natDigitsGo (n + 1) n

/-- Model of Python `str()` of an integer. -/
def pyIntStr (i : Int) : Str :=
  if i < 0 then [45] ++ natDigitsStr i.natAbs else natDigitsStr i.natAbs

/-- Comma-space joined concatenation, as in Python container `repr`s. -/
def commaJoin : List Str → Str
  | [] => []
  | [s] => s
  | s :: rest => s ++ [44, 32] ++ commaJoin rest

mutual

/-- Model of Python `repr` of a value.  For strings, integers, booleans,
`None` and containers this follows CPython; `pyFloat` and `obj` carry their
textual rendering in the constructor; `repr` of a `Binary` instance (default
object `repr` with a memory address) and of `bytes` are modelled by fixed
schemes — neither is reachable from the pipeline's uses of `str()`. -/
def pyRepr : PyVal → Str
  | .pyNone => slit "None"
  | .str s => pyReprStr s
  | .bytes b => [98] ++ pyReprStr b
  | .pyInt n => pyIntStr n
  | .pyBool b => if b then slit "True" else slit "False"
  | .pyFloat s => s
  | .binary _ => slit "<Binary>"
  | .obj s => s
  | .list xs => [91] ++ commaJoin (pyReprOfList xs) ++ [93]
  | .dict kvs => [123] ++ commaJoin (pyReprOfPairs kvs) ++ [125]

def pyReprOfList : List PyVal → List Str
  | [] => []
  | v :: vs => pyRepr v :: pyReprOfList vs

def pyReprOfPairs : List (PyVal × PyVal) → List Str
  | [] => []
  | (k, v) :: rest => (pyRepr k ++ [58, 32] ++ pyRepr v) :: pyReprOfPairs rest

end

/-- Model of Python `unicode()`/`str()` of a value (only ever applied by the
pipeline to values that are not already `str` or `bytes`):
`str(None) = 'None'`, numbers and booleans render as usual,
`str()` of an `xmlrpc.client.Binary` decodes its data as latin-1
(so byte values become the same code points), `obj` carries its own text,
and containers render via `repr`. -/
def pyStr : PyVal → Str
  | .pyNone => slit "None"
  | .str s => s
  | .bytes b => [98] ++ pyReprStr b
  | .pyInt n => pyIntStr n
  | .pyBool b => if b then slit "True" else slit "False"
  | .pyFloat s => s
  | .binary b => b
  | .obj s => s
  | .list xs => pyRepr (.list xs)
  | .dict kvs => pyRepr (.dict kvs)

/-- Python `value == ''`: true exactly for the empty `str` (used by
`KeywordResult._add`'s default check; `Binary`, containers and numbers never
equal `''`). -/
def eqEmptyStr : PyVal → Bool
  | .str [] => true
  | _ => false

/-- Python `==` restricted to the key values dict normalization can produce
(`_str` returns only `str` or `Binary`): strings compare by content,
`Binary` compares by data, mixed comparisons are false. -/
def pyKeyEq : PyVal → PyVal → Bool
  | .str a, .str b => a = b
  | .binary a, .binary b => a = b
  | _, _ => false

/-- One step of Python `dict((k, v) for ...)` construction: an existing key
keeps its position and gets the new value, a new key is appended. -/
def insertPair (m : List (PyVal × PyVal)) (k : PyVal) (v : PyVal) :
    List (PyVal × PyVal) :=
  if m.any (fun p => pyKeyEq p.1 k) then
    m.map (fun p => if pyKeyEq p.1 k then (p.1, v) else p)
  else m ++ [(k, v)]

/-- Python `dict()` built from a sequence of key/value pairs. -/
def dictFromPairs (ps : List (PyVal × PyVal)) : List (PyVal × PyVal) :=
  ps.foldl (fun m p => insertPair m p.1 p.2) []

/-- `KeywordResult._str`: `None` becomes empty text, values that are not
`str`/`bytes` are converted with `unicode()`, and (unless `handle_binary` is
false) the result goes through `_handle_binary_result`. -/
def strFn (handleBinary : Bool) : PyVal → Except PyExc PyVal
  | .pyNone => .ok (.str [])
  | .str s => if handleBinary then handle_binary_result (.str s) else .ok (.str s)
  | .bytes b => if handleBinary then handle_binary_result (.bytes b) else .ok (.bytes b)
  | v =>
      if handleBinary then handle_binary_result (.str (pyStr v))
      else .ok (.str (pyStr v))

mutual

/-- `KeywordResult._handle_return_value`: text/bytes go through the binary
check, numbers (including booleans, which are `int` instances in Python)
pass unchanged, mappings normalize values recursively and coerce keys with
`_str`, other iterables normalize elementwise into a list, and any
non-iterable value is converted with `_str` (so `None` becomes empty text).
The `except TypeError` around the list comprehension corresponds exactly to
the non-iterable constructors (`pyNone`, `binary`, `obj`). -/
def handle_return_value : PyVal → Except PyExc PyVal
  | .str s => handle_binary_result (.str s)
  | .bytes b => handle_binary_result (.bytes b)
  | .pyInt n => .ok (.pyInt n)
  | .pyBool b => .ok (.pyBool b)
  | .pyFloat s => .ok (.pyFloat s)
  | .dict kvs => do
      let ps ← handleReturnPairs kvs
      .ok (.dict (dictFromPairs ps))
  | .list xs => do
      let ys ← handleReturnList xs
      .ok (.list ys)
  | .pyNone => strFn true .pyNone
  | .obj s => strFn true (.obj s)
  | .binary b => strFn true (.binary b)

def handleReturnList : List PyVal → Except PyExc (List PyVal)
  | [] => .ok []
  | v :: vs => do
      let v2 ← handle_return_value v
      let vs2 ← handleReturnList vs
      .ok (v2 :: vs2)

def handleReturnPairs : List (PyVal × PyVal) → Except PyExc (List (PyVal × PyVal))
  | [] => .ok []
  | (k, v) :: rest => do
      let k2 ← strFn true k
      let v2 ← handle_return_value v
      let rest2 ← handleReturnPairs rest
      .ok ((k2, v2) :: rest2)

end

/-- `KeywordResult.data`: the outcome dictionary.  `status` is initialised to
`FAIL`; every other key is absent until `_add` stores it.  The source's
`return` key is called `ret` here because `return` is reserved in Lean. -/
structure ResultData where
  status : Str := slit "FAIL"
  ret : Option PyVal := Option.none
  error : Option PyVal := Option.none
  traceback : Option Str := Option.none
  continuable : Option Bool := Option.none
  fatal : Option Bool := Option.none
  output : Option PyVal := Option.none

/-- `KeywordResult._get_message_from_exception` under Python 3:
`unicode(value)` is the instance's `str()` text (the `except UnicodeError`
fallback is Python 2 only), then `_handle_binary_result`. -/
def get_message_from_exception (e : PyExc) : Except PyExc PyVal :=
  handle_binary_result (.str e.message)

/-- Python truthiness of the processed message (`if not message`): an empty
`str` is falsy; a `Binary` instance is always truthy. -/
def isFalsyMessage : PyVal → Bool
  | .str [] => true
  | _ => false

/-- `KeywordResult._get_error_message`: empty message gives the bare type
name; generic exception types and `ROBOT_SUPPRESS_NAME` give the message
alone; otherwise `'%s: %s' % (name, message)` (where `%s` of a `Binary`
decodes its data as latin-1). -/
def get_error_message (e : PyExc) : Except PyExc PyVal := do
  let message ← get_message_from_exception e
  if isFalsyMessage message then .ok (.str e.typeName)
  else if e.isGeneric || e.suppressName then .ok message
  else .ok (.str (e.typeName ++ [58, 32] ++ pyStr message))

/-- Header line of `_get_error_traceback`'s result. -/
def tracebackHeader : Str := slit "Traceback (most recent call last):" ++ [10]

/-- `KeywordResult._get_error_traceback`: the first extracted entry (the
dispatch machinery's own frame) is dropped, the rest are joined under the
standard header. -/
def get_error_traceback (frames : List Str) : Str :=
  tracebackHeader ++ (frames.drop 1).flatten

/-- `KeywordResult.set_error`.  The traceback argument is `None` when the
caller passed `sys.exc_info()[:2]`.  `_add`'s default comparisons: the error
text is stored unless it equals `''`, the traceback text likewise (it never
is, having a non-empty header), and the `continuable`/`fatal` flags are
stored only when true.  `_get_error_message` can itself raise (through
`_handle_binary_result`), in which case nothing is stored. -/
def set_error (r : ResultData) (e : PyExc) (tb : Option (List Str)) :
    Except PyExc ResultData := do
  let msg ← get_error_message e
  let r := if eqEmptyStr msg = false then { r with error := some msg } else r
  let r := match tb with
    | some frames =>
        let t := get_error_traceback frames
        if t ≠ [] then { r with traceback := some t } else r
    | Option.none => r
  let r := if e.robotContinue then { r with continuable := some true } else r
  let r := if e.robotExit then { r with fatal := some true } else r
  .ok r

/-- `KeywordResult.set_return`: normalize the value and store it under the
`return` key unless the normalized value equals `''`. -/
def set_return (r : ResultData) (v : PyVal) : Except PyExc ResultData := do
  let nv ← handle_return_value v
  .ok (if eqEmptyStr nv = false then { r with ret := some nv } else r)

/-- `KeywordResult.set_status`. -/
def set_status (r : ResultData) (s : Str) : ResultData := { r with status := s }

/-- `KeywordResult.set_output`: empty output is not stored; non-empty output
goes through the binary check first. -/
def set_output (r : ResultData) (output : Str) : Except PyExc ResultData :=
  if output ≠ [] then do
    let ov ← handle_binary_result (.str output)
    .ok { r with output := some ov }
  else .ok r

/-- The severity markers recognized at the start of captured stderr. -/
def severityMarkers : List Str :=
  [slit "*TRACE*", slit "*DEBUG*", slit "*INFO*", slit "*HTML*",
   slit "*WARN*", slit "*ERROR*"]

/-- `stderr.startswith(('*TRACE*', ...))`. -/
def startsWithMarker (s : Str) : Bool :=
  severityMarkers.any (fun m => m.isPrefixOf s)

/-- The merging step of `KeywordRunner._restore_std_streams`: when both
captured buffers are non-empty, stderr gets an `*INFO* ` marker unless it
already starts with a severity marker, and stdout is made to end with a
newline; the result is always `stdout + stderr`. -/
def mergeStdStreams (stdout stderr : Str) : Str :=
  if stdout ≠ [] ∧ stderr ≠ [] then
    let stderr := if startsWithMarker stderr then stderr
                  else slit "*INFO* " ++ stderr
    let stdout := if stdout.getLast? = some 10 then stdout else stdout ++ [10]
    stdout ++ stderr
  else stdout ++ stderr

/-- Effect of one keyword call: the value returned or the exception raised,
plus the text the call wrote to the captured stdout and stderr buffers. -/
structure KwEffect where
  result : Except PyExc PyVal
  stdout : Str := []
  stderr : Str := []

/-- A function or bound method of the hosted library: its
`inspect.getargspec` data (`argNames` includes the bound `self` when
`isMethod`), the rendered default values aligned with the last `argNames`
entries, and its behaviour when called. -/
structure Keyword where
  argNames : List Str := []
  varargsName : Option Str := Option.none
  varkwName : Option Str := Option.none
  defaults : List PyVal := []
  isMethod : Bool := false
  call : List PyVal → List (Str × PyVal) → KwEffect

/-- `KeywordRunner._handle_binary_arg`: a `Binary` argument is unwrapped to
its raw bytes, everything else passes through (top level only). -/
def handle_binary_arg : PyVal → PyVal
  | .binary b => .bytes b
  | v => v

/-- `KeywordRunner._handle_binary_args` on positional and named arguments. -/
def handle_binary_args (args : List PyVal) (kwargs : List (Str × PyVal)) :
    List PyVal × List (Str × PyVal) :=
  (args.map handle_binary_arg, kwargs.map (fun p => (p.1, handle_binary_arg p.2)))

/-- The `TypeError` CPython raises when `run_keyword` calls the `None` it got
for an unknown keyword name.  Its traceback has a single entry, the
`run_keyword` frame itself (which `_get_error_traceback` drops). -/
def noneNotCallable : PyExc :=
  { typeName := slit "TypeError", isGeneric := false,
    message := slit "\x27NoneType\x27 object is not callable",
    tbFrames := [slit "  File dispatch frame\x0a"] }

/-- Calling the resolved keyword: `None` (unknown name) raises `TypeError`
before producing any output; a real keyword produces its effect. -/
def call_keyword : Option Keyword → List PyVal → List (Str × PyVal) → KwEffect
  | Option.none, _, _ => { result := .error noneNotCallable }
  | some k, args, kwargs => k.call args kwargs

/-- The try/except/else/finally body of `KeywordRunner.run_keyword`, applied
to the keyword call's effect.  A raised error is recorded with its traceback;
a failure while normalizing a successful return value is recorded without one
(`sys.exc_info()[:2]`); on success the status becomes `PASS`; the `finally`
clause always runs `set_output` on the merged captured output, and an
exception raised inside the `except` handler (or by `set_output` itself)
propagates out of `run_keyword` — `set_output`'s outcome decides which
exception wins, exactly as a raising `finally` clause replaces the pending
one. -/
def run_keyword_effect (eff : KwEffect) : Except PyExc ResultData :=
  let r0 : ResultData := {}
  let out := mergeStdStreams eff.stdout eff.stderr
  match eff.result with
  | .error e =>
      match set_error r0 e (some e.tbFrames) with
      | .ok r1 => set_output r1 out
      | .error be =>
          match set_output r0 out with
          | .ok _ => .error be
          | .error oe => .error oe
  | .ok rv =>
      match set_return r0 rv with
      | .ok r1 => set_output (set_status r1 (slit "PASS")) out
      | .error e2 =>
          match set_error r0 e2 Option.none with
          | .ok r1 => set_output r1 out
          | .error be =>
              match set_output r0 out with
              | .ok _ => .error be
              | .error oe => .error oe

/-- `KeywordRunner.run_keyword`: decode top-level `Binary` arguments, run the
keyword between `_intercept_std_streams` and `_restore_std_streams`, and
build the outcome.  An `.error` result is an exception escaping
`run_keyword` (and hence the dispatch boundary). -/
def run_keyword (kw : Option Keyword) (args : List PyVal)
    (kwargs : List (Str × PyVal)) : Except PyExc ResultData :=
  let p := handle_binary_args args kwargs
  run_keyword_effect (call_keyword kw p.1 p.2)

/-- An attribute of the hosted library: either a function/method or any
other (plain, truthy) value. -/
inductive Attr where
  | plain
  | func (k : Keyword)

/-- The hosted library: its attributes in `dir()` scan order.  (CPython's
`dir()` sorts names alphabetically; none of the verified properties depend
on the ordering, so the list order stands in for it.) -/
structure Library where
  attrs : List (Str × Attr)

/-- `getattr(library, name, None)`. -/
def lookupAttr (lib : Library) (name : Str) : Option Attr :=
  (lib.attrs.find? (fun p => p.1 = name)).map (fun p => p.2)

/-- `RemoteLibrary`: the hosted library plus the optional
`stop_remote_server` bound method of the server. -/
structure RemoteLib where
  library : Library
  stop : Option Keyword := Option.none

/-- The reserved synthetic keyword name. -/
def stopName : Str := slit "stop_remote_server"

/-- `RemoteLibrary._get_keyword`: the synthetic stop name resolves to the
server's stop method (even when that is `None`); any other name resolves to
the library attribute of that name, provided it is a function or method. -/
def get_keyword (rl : RemoteLib) (name : Str) : Option Keyword :=
  if name = stopName then rl.stop
  else match lookupAttr rl.library name with
    | some (.func k) => some k
    | _ => Option.none

/-- The `get_keyword_names`-or-`getKeywordNames` attribute lookup
(`getattr(..) or getattr(..)`; plain attribute values are modelled as
truthy objects, so a present plain attribute short-circuits the `or`). -/
def getEnumerator (lib : Library) : Option Attr :=
  match lookupAttr lib (slit "get_keyword_names") with
  | some a => some a
  | Option.none => lookupAttr lib (slit "getKeywordNames")

/-- `attr[0] == '_'` on an attribute name. -/
def headIsUnderscore : Str → Bool
  | 95 :: _ => true
  | _ => false

/-- `inspect.isfunction(item) or inspect.ismethod(item)` on an attribute. -/
def isFuncAttr : Attr → Bool
  | .func _ => true
  | .plain => false

/-- The default enumeration: public (non-underscore) attributes that are
functions or methods, in scan order. -/
def scanNames (lib : Library) : List Str :=
  (lib.attrs.filter (fun p => headIsUnderscore p.1 = false && isFuncAttr p.2)).map
    (fun p => p.1)

/-- `names.append('stop_remote_server')` when the server registered a stop
method (`if self._stop_remote_server:`). -/
def stopEntry (rl : RemoteLib) : List PyVal :=
  if rl.stop.isSome then [PyVal.str stopName] else []

/-- The `AttributeError` a non-list value returned by a custom enumerator
would raise at `names.append(...)`. -/
def attributeErrorAppend : PyExc :=
  { typeName := slit "AttributeError", isGeneric := false,
    message := slit "object has no attribute \x27append\x27" }

/-- `RemoteLibrary.get_keyword_names`: a callable `get_keyword_names` /
`getKeywordNames` attribute of the library is called and its result used
verbatim (an exception it raises propagates, and a non-list result fails at
`names.append`); otherwise the default scan applies.  The synthetic stop
name is appended when registered. -/
def get_keyword_names (rl : RemoteLib) : Except PyExc (List PyVal) :=
  match getEnumerator rl.library with
  | some (.func k) =>
      match (k.call [] []).result with
      | .error e => .error e
      | .ok (.list names) => .ok (names ++ stopEntry rl)
      | .ok _ => .error attributeErrorAppend
  | _ => .ok ((scanNames rl.library).map PyVal.str ++ stopEntry rl)

/-- `RemoteLibrary.run_keyword`: resolve the name and hand over to the
runner. -/
def rl_run_keyword (rl : RemoteLib) (name : Str) (args : List PyVal)
    (kwargs : List (Str × PyVal)) : Except PyExc ResultData :=
  run_keyword (get_keyword rl name) args kwargs

/-- `RemoteLibrary._arguments_from_kw`: drop the bound `self`, render the
defaulted tail as `name=default`, then append `*varargs` and `**kwargs`
entries. -/
def arguments_from_kw (k : Keyword) : List Str :=
  let args := if k.isMethod then k.argNames.drop 1 else k.argNames
  let args :=
    if k.defaults.isEmpty then args
    else
      let n := args.length - k.defaults.length
      args.take n ++
        List.zipWith (fun nm d => nm ++ [61] ++ pyStr d) (args.drop n) k.defaults
  let args := match k.varargsName with
    | some v => args ++ [[42] ++ v]
    | Option.none => args
  match k.varkwName with
  | some v => args ++ [[42, 42] ++ v]
  | Option.none => args

/-- `RemoteLibrary.get_keyword_arguments`: an unresolvable name gives the
empty list. -/
def get_keyword_arguments (rl : RemoteLib) (name : Str) : List Str :=
  match get_keyword rl name with
  | Option.none => []
  | some k => arguments_from_kw k

/-- A target the process-wide `sys.stdout`/`sys.stderr` variables can point
at: the interpreter's original `sys.__stdout__`/`sys.__stderr__`, or a
`StringIO` capture buffer identified by its allocation number. -/
inductive Stream where
  | dunderStdout
  | dunderStderr
  | buffer (id : Nat)

/-- The process-wide stream state: the current targets of `sys.stdout` and
`sys.stderr`, the identifiers of the closed buffers, and the next fresh
buffer identifier. -/
structure StdState where
  stdoutTarget : Stream
  stderrTarget : Stream
  closed : List Nat := []
  nextId : Nat := 0

/-- `KeywordRunner._intercept_std_streams`: two fresh `StringIO` buffers
become the targets. -/
def intercept_std_streams (s : StdState) : StdState :=
  { s with stdoutTarget := .buffer s.nextId,
           stderrTarget := .buffer (s.nextId + 1),
           nextId := s.nextId + 2 }

/-- The buffer (if any) a closed stream target identifies. -/
def closeIds : Stream → List Nat
  | .buffer i => [i]
  | _ => []

/-- The state change of `KeywordRunner._restore_std_streams`: the current
targets are remembered and closed, and `sys.stdout`/`sys.stderr` are
reassigned to `sys.__stdout__`/`sys.__stderr__` — the interpreter originals,
not whatever was installed when capture began. -/
def restore_std_streams_state (s : StdState) : StdState :=
  { s with stdoutTarget := .dunderStdout,
           stderrTarget := .dunderStderr,
           closed := s.closed ++ closeIds s.stdoutTarget ++ closeIds s.stderrTarget }

/-- `KeywordRunner.run_keyword` with the process-wide stream state explicit:
capture is engaged, the keyword runs (writing into the fresh buffers, as
recorded in its effect), and the `finally` clause restores the streams
whether the outcome is a success, a recorded failure, or an escaping
exception. -/
def run_keyword_st (kw : Option Keyword) (args : List PyVal)
    (kwargs : List (Str × PyVal)) (s : StdState) :
    Except PyExc ResultData × StdState :=
  let s1 := intercept_std_streams s
  let res := run_keyword kw args kwargs
  (res, restore_std_streams_state s1)


/-! ### Derived and specification-shaped definitions

The definitions below are not translations of further source code: they are
either convenient composites of the embedding above, or restatements of the
specification's wording (`mergeStdStreamsSpec`, `specBinaryUnsafe`,
`argumentsSpec`, `specNorm`) used to compare the source behaviour against
the spec, plus concrete fixtures used to evaluate the pipeline. -/

/-- The keyword-call effect produced inside `run_keyword` after argument
decoding: `run_keyword kw args kwargs =
run_keyword_effect (dispatch_effect kw args kwargs)` definitionally. -/
def dispatch_effect (kw : Option Keyword) (args : List PyVal)
    (kwargs : List (Str × PyVal)) : KwEffect :=
  call_keyword kw (handle_binary_args args kwargs).1 (handle_binary_args args kwargs).2

/-- A text value on which `_handle_binary_result` does not raise: either it
has no binary control characters (passed through as text) or it is pure
ASCII (wrapped as `Binary`).  Equivalently, it does not contain both a
binary control character and a non-ASCII character. -/
def representableText (s : Str) : Bool := !(hasBinaryCtl s && !allAscii s)

/-- The classification claimed by the specification: binary-unsafe exactly
when raw bytes contain non-ASCII content, or when a control character
outside tab/newline/carriage-return occurs. -/
def specBinaryUnsafe : PyVal → Bool
  | .bytes b => hasNonAscii b || hasBinaryCtl b
  | .str s => hasBinaryCtl s
  | _ => false

/-- The specification's description of stream merging, restated directly:
if either buffer is empty the buffers are concatenated untouched; otherwise
stdout is amended to end with a newline and stderr is prefixed with
`*INFO* ` unless it already starts with a severity marker. -/
def mergeStdStreamsSpec (stdout stderr : Str) : Str :=
  if stdout = [] ∨ stderr = [] then stdout ++ stderr
  else
    (if stdout.getLast? = some 10 then stdout else stdout ++ [10]) ++
    (if startsWithMarker stderr then stderr else slit "*INFO* " ++ stderr)

/-- The specification's description of `get_keyword_arguments`' rendering,
restated directly: required names, then `name=default`, then `*varargs`,
then `**kwargs`. -/
def argumentsSpec (k : Keyword) : List Str :=
  let params := if k.isMethod then k.argNames.drop 1 else k.argNames
  let n := params.length - k.defaults.length
  params.take n ++
    List.zipWith (fun nm d => nm ++ [61] ++ pyStr d) (params.drop n) k.defaults ++
    (match k.varargsName with
     | some v => [[42] ++ v]
     | Option.none => []) ++
    (match k.varkwName with
     | some v => [[42, 42] ++ v]
     | Option.none => [])

/-- Mapping keys that normalization turns into (or keeps as) clean text:
binary-safe text keys stay unchanged, integer keys are stringified. -/
def safeKey : PyVal → Bool
  | .str s => !hasBinaryCtl s
  | .pyInt _ => true
  | _ => false

/-- The text key normalization produces for a safe key. -/
def specKey : PyVal → PyVal
  | .pyInt n => .str (pyIntStr n)
  | v => v

/-- No key in the list equals a key occurring after it (so Python `dict`
construction keeps the pairs verbatim). -/
def pairwiseFreshKeys : List PyVal → Bool
  | [] => true
  | k :: rest => !(rest.any (fun x => pyKeyEq x k)) && pairwiseFreshKeys rest

mutual

/-- The nested mapping/sequence structures the specification's round-trip
property quantifies over: dict/list nodes, leaves that are binary-safe
text, integers, booleans or floats, mapping keys that are safe
(`safeKey`) with pairwise-distinct normalized forms. -/
def safeTree : PyVal → Bool
  | .str s => !hasBinaryCtl s
  | .pyInt _ => true
  | .pyBool _ => true
  | .pyFloat _ => true
  | .list xs => safeTreeList xs
  | .dict kvs =>
      safeTreePairs kvs && pairwiseFreshKeys (kvs.map (fun p => specKey p.1))
  | _ => false

def safeTreeList : List PyVal → Bool
  | [] => true
  | v :: vs => safeTree v && safeTreeList vs

def safeTreePairs : List (PyVal × PyVal) → Bool
  | [] => true
  | (k, v) :: rest => safeKey k && safeTree v && safeTreePairs rest

end

mutual

/-- The specification's expected normalization result on a safe structure:
the identical structure with keys coerced to text and leaves unchanged. -/
def specNorm : PyVal → PyVal
  | .list xs => .list (specNormList xs)
  | .dict kvs => .dict (specNormPairs kvs)
  | v => v

def specNormList : List PyVal → List PyVal
  | [] => []
  | v :: vs => specNorm v :: specNormList vs

def specNormPairs : List (PyVal × PyVal) → List (PyVal × PyVal)
  | [] => []
  | (k, v) :: rest => (specKey k, specNorm v) :: specNormPairs rest

end

/-- Fixture for C1: a keyword returning a text value that contains both a
control character and a non-ASCII character, so that the value itself
cannot be normalized. -/
def c1Kw : Keyword := { call := fun _ _ => { result := .ok (.str [0, 233]) } }

/-- The outcome `run_keyword` produces for `c1Kw`. -/
def c1Expected : ResultData :=
  { status := slit "FAIL",
    error := some (.str (slit "ValueError: " ++ cannotRepresentMsg [0, 233])) }

/-- Fixture for C2: a keyword raising a generic exception whose message
contains both a control character and a non-ASCII character. -/
def badMsgKw : Keyword :=
  { call := fun _ _ =>
      { result := .error { typeName := slit "Exception", isGeneric := true,
                           message := [0, 233],
                           tbFrames := [slit "  File keyword frame\x0a"] } } }

/-- Fixture for C5: a generic `RuntimeError("boom")`. -/
def boomExc : PyExc :=
  { typeName := slit "RuntimeError", isGeneric := true, message := slit "boom" }

/-- Fixture for C5: a custom `MyError("bad")`. -/
def myErrorExc : PyExc :=
  { typeName := slit "MyError", isGeneric := false, message := slit "bad" }

/-- Fixture for C6: a keyword returning the empty string (not `None`). -/
def emptyStrKw : Keyword := { call := fun _ _ => { result := .ok (.str []) } }

/-- Fixture for C6: a keyword printing `hello` and returning `None`. -/
def helloNoneKw : Keyword :=
  { call := fun _ _ => { result := .ok .pyNone, stdout := slit "hello" ++ [10] } }

/-- Fixture for C7's witness: the specification's round-trip example
`a maps to [1, "x", b maps to 2]`. -/
def exNested : PyVal :=
  .dict [(.str (slit "a"),
          .list [.pyInt 1, .str (slit "x"), .dict [(.str (slit "b"), .pyInt 2)]])]

/-- Fixture for C8: the operation `b(x, y=1)` of the spec's example. -/
def bKw : Keyword :=
  { argNames := [slit "x", slit "y"], defaults := [.pyInt 1],
    call := fun _ _ => { result := .ok .pyNone } }

/-- Fixture for C8: the operation `a()` of the spec's example. -/
def aKw : Keyword := { call := fun _ _ => { result := .ok .pyNone } }

/-- Fixture for C8: a library exposing `a()` and `b(x, y=1)`. -/
def exampleLib : RemoteLib :=
  { library := { attrs := [(slit "a", .func aKw), (slit "b", .func bKw)] } }

/-- Fixture for C8's witness: an empty library. -/
def emptyLib : RemoteLib := { library := { attrs := [] } }

/-- True when the library provides no callable custom enumerator, so
`get_keyword_names` uses the default attribute scan. -/
def usesDefaultScan (lib : Library) : Bool :=
  match getEnumerator lib with
  | some (.func _) => false
  | _ => true

/-- Fixture for C10: an underscore-prefixed keyword. -/
def hiddenKw : Keyword := { call := fun _ _ => { result := .ok (.pyInt 7) } }

/-- Fixture for C10: a library whose only attribute is `_hidden`. -/
def hiddenLib : Library := { attrs := [(slit "_hidden", .func hiddenKw)] }


/-! ### Helper lemmas -/

theorem isBinaryCtl_of_ge (c : Nat) (h : 32 ≤ c) : isBinaryCtl c = false := by
  simp only [isBinaryCtl, Bool.or_eq_false_iff, decide_eq_false_iff_not,
    Bool.and_eq_false_iff]
  omega

theorem hasBinaryCtl_append (a b : Str) :
    hasBinaryCtl (a ++ b) = (hasBinaryCtl a || hasBinaryCtl b) := by
  simp [hasBinaryCtl]

theorem hexDigit_ge (n : Nat) : 48 ≤ hexDigit n := by
  simp only [hexDigit]
  split <;> omega

theorem hasBinaryCtl_singleton (c : Nat) : hasBinaryCtl [c] = isBinaryCtl c := by
  simp [hasBinaryCtl]

theorem reprCharCodes_noCtl (c : Nat) : hasBinaryCtl (reprCharCodes c) = false := by
  simp only [reprCharCodes]
  split_ifs with h1 h2 h3 h4 h5 h6
  · rfl
  · rfl
  · rfl
  · rfl
  · rfl
  · simp only [hasBinaryCtl, hexByte, List.cons_append, List.nil_append,
      List.any_cons, List.any_nil]
    rw [isBinaryCtl_of_ge _ (Nat.le_trans (by omega) (hexDigit_ge (c / 16 % 16))),
      isBinaryCtl_of_ge _ (Nat.le_trans (by omega) (hexDigit_ge (c % 16)))]
    rfl
  · simp only [Bool.or_eq_true, decide_eq_true_eq, not_or] at h6
    rw [hasBinaryCtl_singleton]
    exact isBinaryCtl_of_ge c (by omega)

theorem pyReprStr_noCtl (s : Str) : hasBinaryCtl (pyReprStr s) = false := by
  have hflat : hasBinaryCtl (s.flatMap reprCharCodes) = false := by
    induction s with
    | nil => rfl
    | cons c cs ih =>
        rw [List.flatMap_cons, hasBinaryCtl_append, reprCharCodes_noCtl, ih]
        rfl
  rw [pyReprStr, hasBinaryCtl_append, hasBinaryCtl_append, hflat]
  rfl

theorem cannotRepresentMsg_noCtl (s : Str) :
    hasBinaryCtl (cannotRepresentMsg s) = false := by
  rw [cannotRepresentMsg, hasBinaryCtl_append, hasBinaryCtl_append, pyReprStr_noCtl]
  rfl

theorem natDigitsGo_noCtl (fuel n : Nat) :
    hasBinaryCtl (natDigitsGo fuel n) = false := by
  induction fuel generalizing n with
  | zero => rfl
  | succ fuel ih =>
      rw [natDigitsGo]
      split
      · rw [hasBinaryCtl_singleton]
        exact isBinaryCtl_of_ge _ (by omega)
      · rw [hasBinaryCtl_append, ih, hasBinaryCtl_singleton,
          isBinaryCtl_of_ge _ (show 32 ≤ 48 + n % 10 by omega)]
        rfl

theorem pyIntStr_noCtl (i : Int) : hasBinaryCtl (pyIntStr i) = false := by
  simp only [pyIntStr, natDigitsStr]
  split
  · rw [hasBinaryCtl_append, hasBinaryCtl_singleton,
      isBinaryCtl_of_ge 45 (by omega), natDigitsGo_noCtl]
    rfl
  · exact natDigitsGo_noCtl _ _

theorem hbr_str_of_noCtl (s : Str) (h : hasBinaryCtl s = false) :
    handle_binary_result (.str s) = .ok (.str s) := by
  simp [handle_binary_result, contains_binary, h]

theorem hbr_str_ok_of_rep (s : Str) (h : representableText s = true) :
    ∃ v, handle_binary_result (.str s) = .ok v := by
  cases hc : hasBinaryCtl s with
  | false => exact ⟨.str s, hbr_str_of_noCtl s hc⟩
  | true =>
      have ha : allAscii s = true := by
        simp [representableText, hc] at h
        exact h
      exact ⟨.binary s, by simp [handle_binary_result, contains_binary, hc, ha]⟩

theorem hbr_error_shape (v : PyVal) (e : PyExc)
    (h : handle_binary_result v = .error e) : ∃ s, e = valueErrorCannotRepresent s := by
  cases v
  case str s =>
      simp only [handle_binary_result, contains_binary] at h
      split_ifs at h with h1 h2
      all_goals first
        | exact Except.noConfusion h
        | exact ⟨s, ((Except.error.injEq _ _).mp h).symm⟩
  all_goals simp [handle_binary_result, contains_binary] at h

theorem strFn_error_shape (v : PyVal) (e : PyExc)
    (h : strFn true v = .error e) : ∃ s, e = valueErrorCannotRepresent s := by
  cases v
  all_goals
    simp only [strFn, if_true] at h
    first
      | exact Except.noConfusion h
      | exact hbr_error_shape _ _ h

mutual

theorem hrv_error_shape (v : PyVal) (e : PyExc)
    (h : handle_return_value v = .error e) :
    ∃ s, e = valueErrorCannotRepresent s := by
  match v with
  | .str s => exact hbr_error_shape _ _ h
  | .bytes b => exact hbr_error_shape _ _ h
  | .pyInt n => exact Except.noConfusion h
  | .pyBool b => exact Except.noConfusion h
  | .pyFloat s => exact Except.noConfusion h
  | .pyNone =>
      rw [handle_return_value] at h
      exact strFn_error_shape _ _ h
  | .obj s =>
      rw [handle_return_value] at h
      exact strFn_error_shape _ _ h
  | .binary b =>
      rw [handle_return_value] at h
      exact strFn_error_shape _ _ h
  | .list xs =>
      rw [handle_return_value] at h
      cases hl : handleReturnList xs with
      | error e2 =>
          rw [hl] at h
          cases h
          exact hrvList_error_shape xs e hl
      | ok ys =>
          rw [hl] at h
          exact Except.noConfusion h
  | .dict kvs =>
      rw [handle_return_value] at h
      cases hp : handleReturnPairs kvs with
      | error e2 =>
          rw [hp] at h
          cases h
          exact hrvPairs_error_shape kvs e hp
      | ok ps =>
          rw [hp] at h
          exact Except.noConfusion h

theorem hrvList_error_shape (xs : List PyVal) (e : PyExc)
    (h : handleReturnList xs = .error e) :
    ∃ s, e = valueErrorCannotRepresent s := by
  match xs with
  | [] => exact Except.noConfusion h
  | v :: vs =>
      rw [handleReturnList] at h
      cases hv : handle_return_value v with
      | error e2 =>
          rw [hv] at h
          cases h
          exact hrv_error_shape v e hv
      | ok v2 =>
          rw [hv] at h
          cases hvs : handleReturnList vs with
          | error e2 =>
              rw [hvs] at h
              cases h
              exact hrvList_error_shape vs e hvs
          | ok vs2 =>
              rw [hvs] at h
              exact Except.noConfusion h

theorem hrvPairs_error_shape (ps : List (PyVal × PyVal)) (e : PyExc)
    (h : handleReturnPairs ps = .error e) :
    ∃ s, e = valueErrorCannotRepresent s := by
  match ps with
  | [] => exact Except.noConfusion h
  | (k, v) :: rest =>
      rw [handleReturnPairs] at h
      cases hk : strFn true k with
      | error e2 =>
          rw [hk] at h
          cases h
          exact strFn_error_shape k e hk
      | ok k2 =>
          rw [hk] at h
          cases hv : handle_return_value v with
          | error e2 =>
              rw [hv] at h
              cases h
              exact hrv_error_shape v e hv
          | ok v2 =>
              rw [hv] at h
              cases hrest : handleReturnPairs rest with
              | error e2 =>
                  rw [hrest] at h
                  cases h
                  exact hrvPairs_error_shape rest e hrest
              | ok rest2 =>
                  rw [hrest] at h
                  exact Except.noConfusion h

end

theorem gem_of_noCtl (e : PyExc) (h : hasBinaryCtl e.message = false) :
    get_error_message e = .ok (.str (if e.message.isEmpty then e.typeName
      else if e.isGeneric || e.suppressName then e.message
      else e.typeName ++ [58, 32] ++ e.message)) := by
  simp only [get_error_message, get_message_from_exception]
  rw [hbr_str_of_noCtl _ h]
  cases hm : e.message with
  | nil => rfl
  | cons c cs =>
      show (if (e.isGeneric || e.suppressName) = true
            then (Except.ok (PyVal.str (c :: cs)) : Except PyExc PyVal)
            else Except.ok (PyVal.str (e.typeName ++ [58, 32] ++ (c :: cs)))) =
          Except.ok (PyVal.str (if (e.isGeneric || e.suppressName) = true
            then (c :: cs) else e.typeName ++ [58, 32] ++ (c :: cs)))
      exact (apply_ite (fun z => (Except.ok (PyVal.str z) : Except PyExc PyVal)) _ _ _).symm

theorem gem_cannotRepresent (s : Str) :
    get_error_message (valueErrorCannotRepresent s) =
      .ok (.str (slit "ValueError: " ++ cannotRepresentMsg s)) := by
  rw [gem_of_noCtl (valueErrorCannotRepresent s) (cannotRepresentMsg_noCtl s)]
  rfl

theorem gem_ok_of_rep (e : PyExc) (h : representableText e.message = true) :
    ∃ m, get_error_message e = .ok m := by
  obtain ⟨v, hv⟩ := hbr_str_ok_of_rep e.message h
  simp only [get_error_message, get_message_from_exception]
  rw [hv]
  show ∃ m,
    (if isFalsyMessage v = true then (Except.ok (PyVal.str e.typeName) : Except PyExc PyVal)
     else if (e.isGeneric || e.suppressName) = true then Except.ok v
     else Except.ok (PyVal.str (e.typeName ++ [58, 32] ++ pyStr v))) = Except.ok m
  split_ifs <;> exact ⟨_, rfl⟩

theorem set_error_err (r : ResultData) (e : PyExc) (tb : Option (List Str))
    (be : PyExc) (hm : get_error_message e = .error be) :
    set_error r e tb = .error be := by
  simp only [set_error, hm]
  rfl

theorem set_error_ok_spec (r : ResultData) (e : PyExc) (tb : Option (List Str))
    (m : PyVal) (hm : get_error_message e = .ok m) :
    ∃ r2, set_error r e tb = .ok r2
      ∧ r2.status = r.status ∧ r2.ret = r.ret ∧ r2.output = r.output
      ∧ (tb = Option.none → r2.traceback = r.traceback)
      ∧ (eqEmptyStr m = false → r2.error = some m) := by
  simp only [set_error, hm]
  refine ⟨_, rfl, ?_, ?_, ?_, ?_, ?_⟩
  · cases tb <;> split_ifs <;> rfl
  · cases tb <;> split_ifs <;> rfl
  · cases tb <;> split_ifs <;> rfl
  · rintro rfl
    split_ifs <;> rfl
  · intro hEmpty
    cases tb <;> simp only [hEmpty] <;> split_ifs <;> rfl

theorem set_output_empty (r : ResultData) : set_output r [] = .ok r := rfl

theorem set_output_ok_spec (r : ResultData) (out : Str) (r2 : ResultData)
    (h : set_output r out = .ok r2) :
    r2.status = r.status ∧ r2.ret = r.ret ∧ r2.error = r.error
      ∧ r2.traceback = r.traceback ∧ r2.continuable = r.continuable
      ∧ r2.fatal = r.fatal := by
  simp only [set_output] at h
  split_ifs at h
  · cases hb : handle_binary_result (.str out) with
    | error e =>
        rw [hb] at h
        exact Except.noConfusion h
    | ok ov =>
        rw [hb] at h
        cases h
        exact ⟨rfl, rfl, rfl, rfl, rfl, rfl⟩
  · cases h
    exact ⟨rfl, rfl, rfl, rfl, rfl, rfl⟩

theorem set_output_ok_of_rep (r : ResultData) (out : Str)
    (h : representableText out = true) : ∃ r2, set_output r out = .ok r2 := by
  by_cases ho : out = []
  · subst ho
    exact ⟨r, set_output_empty r⟩
  · obtain ⟨v, hv⟩ := hbr_str_ok_of_rep out h
    refine ⟨{ r with output := some v }, ?_⟩
    simp only [set_output]
    rw [if_pos ho, hv]
    rfl

theorem set_return_ok (r : ResultData) (v nv : PyVal)
    (h : handle_return_value v = .ok nv) :
    set_return r v =
      .ok (if eqEmptyStr nv = false then { r with ret := some nv } else r) := by
  simp only [set_return, h]
  rfl

theorem set_return_error (r : ResultData) (v : PyVal) (e : PyExc)
    (h : handle_return_value v = .error e) : set_return r v = .error e := by
  simp only [set_return, h]
  rfl

theorem run_keyword_as_effect (kw : Option Keyword) (args : List PyVal)
    (kwargs : List (Str × PyVal)) :
    run_keyword kw args kwargs = run_keyword_effect (dispatch_effect kw args kwargs) := rfl

theorem rke_ok_spec (eff : KwEffect) (r : ResultData)
    (h : run_keyword_effect eff = .ok r) :
    (∀ e, eff.result = .error e → r.status = slit "FAIL")
    ∧ (∀ rv nv, eff.result = .ok rv → handle_return_value rv = .ok nv →
        r.status = slit "PASS"
        ∧ r.ret = (if eqEmptyStr nv then Option.none else some nv))
    ∧ (∀ rv e, eff.result = .ok rv → handle_return_value rv = .error e →
        r.status = slit "FAIL"
        ∧ r.error = some (.str (slit "ValueError: " ++ e.message))
        ∧ r.traceback = Option.none) := by
  cases heff : eff.result with
  | error e0 =>
      simp only [run_keyword_effect, heff] at h
      cases hse : set_error {} e0 (some e0.tbFrames) with
      | ok r1 =>
          rw [hse] at h
          have hstat1 : r1.status = ({} : ResultData).status := by
            cases hm : get_error_message e0 with
            | error be =>
                rw [set_error_err {} e0 _ be hm] at hse
                exact Except.noConfusion hse
            | ok m =>
                obtain ⟨r2, hse2, hs, _⟩ := set_error_ok_spec {} e0 (some e0.tbFrames) m hm
                rw [hse2] at hse
                cases hse
                exact hs
          have hf := set_output_ok_spec _ _ _ h
          refine ⟨fun e he => hf.1.trans hstat1,
            fun rv nv hrv _ => Except.noConfusion hrv,
            fun rv e hrv _ => Except.noConfusion hrv⟩
      | error be =>
          rw [hse] at h
          cases hso : set_output {} (mergeStdStreams eff.stdout eff.stderr) with
          | ok r2 =>
              rw [hso] at h
              exact Except.noConfusion h
          | error oe =>
              rw [hso] at h
              exact Except.noConfusion h
  | ok rv0 =>
      simp only [run_keyword_effect, heff] at h
      cases hn : handle_return_value rv0 with
      | ok nv0 =>
          simp only [set_return_ok _ _ _ hn] at h
          have hf := set_output_ok_spec _ _ _ h
          refine ⟨fun e he => Except.noConfusion he,
            fun rv nv hrv hnv => ?_, fun rv e hrv hnv => ?_⟩
          · cases hrv
            rw [hn] at hnv
            cases hnv
            refine ⟨hf.1.trans rfl, ?_⟩
            rw [hf.2.1]
            cases hEq : eqEmptyStr nv0 <;> simp [hEq, set_status]
          · cases hrv
            rw [hn] at hnv
            exact Except.noConfusion hnv
      | error e2 =>
          obtain ⟨s, hshape⟩ := hrv_error_shape _ _ hn
          subst hshape
          simp only [set_return_error _ _ _ hn] at h
          obtain ⟨r1, hse, hstat, hret, houtp, htb, herr⟩ :=
            set_error_ok_spec {} _ Option.none _ (gem_cannotRepresent s)
          rw [hse] at h
          have hf := set_output_ok_spec _ _ _ h
          refine ⟨fun e he => Except.noConfusion he,
            fun rv nv hrv hnv => ?_, fun rv e hrv hnv => ?_⟩
          · cases hrv
            rw [hn] at hnv
            exact Except.noConfusion hnv
          · cases hrv
            rw [hn] at hnv
            cases hnv
            refine ⟨hf.1.trans hstat, ?_, ?_⟩
            · rw [hf.2.2.1, herr rfl]
              rfl
            · rw [hf.2.2.2.1, htb rfl]

theorem rke_fail_of (eff : KwEffect)
    (hout : representableText (mergeStdStreams eff.stdout eff.stderr) = true)
    (hfail : (∃ e, eff.result = .error e ∧ representableText e.message = true)
      ∨ (∃ rv e2, eff.result = .ok rv ∧ handle_return_value rv = .error e2)) :
    ∃ r, run_keyword_effect eff = .ok r ∧ r.status = slit "FAIL" := by
  rcases hfail with ⟨e, he, hrep⟩ | ⟨rv, e2, he, hn⟩
  · obtain ⟨m, hm⟩ := gem_ok_of_rep e hrep
    obtain ⟨r1, hse, hstat, -, -, -, -⟩ := set_error_ok_spec {} e (some e.tbFrames) m hm
    obtain ⟨r2, hso⟩ := set_output_ok_of_rep r1 _ hout
    refine ⟨r2, ?_, ?_⟩
    · simp only [run_keyword_effect, he]
      rw [hse]
      exact hso
    · have hf := set_output_ok_spec _ _ _ hso
      exact hf.1.trans hstat
  · obtain ⟨s, hshape⟩ := hrv_error_shape _ _ hn
    subst hshape
    obtain ⟨r1, hse, hstat, -, -, -, -⟩ :=
      set_error_ok_spec {} _ Option.none _ (gem_cannotRepresent s)
    obtain ⟨r2, hso⟩ := set_output_ok_of_rep r1 _ hout
    refine ⟨r2, ?_, ?_⟩
    · simp only [run_keyword_effect, he, set_return_error _ _ _ hn]
      rw [hse]
      exact hso
    · have hf := set_output_ok_spec _ _ _ hso
      exact hf.1.trans hstat

/-- C1: for every invocation request, the outcome's status starts as `FAIL`
(`KeywordResult.__init__` sets `{'status': 'FAIL'}`) and, for every outcome
`run_keyword` actually returns, the status is `PASS` exactly when the
keyword call returned a value and that value was successfully normalized;
when normalization of an otherwise-successful return value raises, the
returned outcome has status `FAIL`, carries the normalization error
(`ValueError: Cannot represent ... as binary.`) as its error message, and
contains no traceback entry. -/
theorem claim_C1 :
    (({} : ResultData).status = slit "FAIL")
    ∧ ∀ (kw : Option Keyword) (args : List PyVal) (kwargs : List (Str × PyVal))
        (r : ResultData), run_keyword kw args kwargs = .ok r →
        ((r.status = slit "PASS" ↔
            ∃ rv nv, (dispatch_effect kw args kwargs).result = .ok rv
              ∧ handle_return_value rv = .ok nv)
         ∧ ∀ rv e, (dispatch_effect kw args kwargs).result = .ok rv →
             handle_return_value rv = .error e →
             r.status = slit "FAIL"
             ∧ r.error = some (.str (slit "ValueError: " ++ e.message))
             ∧ r.traceback = Option.none) := by
  refine ⟨rfl, fun kw args kwargs r h => ?_⟩
  rw [run_keyword_as_effect] at h
  obtain ⟨h1, h2, h3⟩ := rke_ok_spec _ _ h
  have hdistinct : slit "FAIL" ≠ slit "PASS" := by decide
  constructor
  · constructor
    · intro hpass
      cases heff : (dispatch_effect kw args kwargs).result with
      | error e => exact absurd hpass ((h1 e heff) ▸ hdistinct)
      | ok rv =>
          cases hn : handle_return_value rv with
          | ok nv => exact ⟨rv, nv, rfl, hn⟩
          | error e => exact absurd hpass (((h3 rv e heff hn).1) ▸ hdistinct)
    · rintro ⟨rv, nv, heff, hn⟩
      exact (h2 rv nv heff hn).1
  · exact h3

/-- Witness for C1 at a concrete input: a keyword returning the text
`"\x00\xe9"` (control character plus non-ASCII), whose normalization
raises; the produced outcome has status `FAIL`, the `ValueError` text as
error, and no traceback. -/
theorem claim_C1_witness :
    c1Expected.status = slit "FAIL"
    ∧ c1Expected.error = some (.str (slit "ValueError: "
        ++ (valueErrorCannotRepresent [0, 233]).message))
    ∧ c1Expected.traceback = Option.none :=
  (claim_C1.2 (some c1Kw) [] [] c1Expected rfl).2 (.str [0, 233])
    (valueErrorCannotRepresent [0, 233]) rfl rfl

/-- C2 counterexample: the claim that no exception ever escapes the
dispatch boundary is false.  A keyword raising `Exception("\x00\xe9")`
(message with a control character and a non-ASCII character) makes
`set_error` itself raise `ValueError` while building the outcome, and that
exception propagates out of `run_keyword`: the result is an escaping
exception, not an outcome payload. -/
theorem claim_C2_counterexample :
    run_keyword (some badMsgKw) [] [] = .error (valueErrorCannotRepresent [0, 233]) := rfl

/-- C2 (amended): for an invocation whose name resolves to no callable,
whose callable raises an error with a transport-representable message, or
whose successful return value cannot be encoded — provided the captured
output is transport-representable — `run_keyword` returns a well-formed
outcome payload with status `FAIL` and no exception escapes the dispatch
boundary. -/
theorem claim_C2 (kw : Option Keyword) (args : List PyVal)
    (kwargs : List (Str × PyVal))
    (hout : representableText (mergeStdStreams (dispatch_effect kw args kwargs).stdout
      (dispatch_effect kw args kwargs).stderr) = true)
    (hfail : kw = Option.none
      ∨ (∃ e, (dispatch_effect kw args kwargs).result = .error e
           ∧ representableText e.message = true)
      ∨ (∃ rv e2, (dispatch_effect kw args kwargs).result = .ok rv
           ∧ handle_return_value rv = .error e2)) :
    ∃ r, run_keyword kw args kwargs = .ok r ∧ r.status = slit "FAIL" := by
  rw [run_keyword_as_effect]
  rcases hfail with rfl | hfail | hfail
  · exact rke_fail_of _ hout (Or.inl ⟨noneNotCallable, rfl, rfl⟩)
  · exact rke_fail_of _ hout (Or.inl hfail)
  · exact rke_fail_of _ hout (Or.inr hfail)

/-- Witness for C2 at a concrete input: the unknown-keyword case. -/
theorem claim_C2_witness :
    ∃ r, run_keyword Option.none [] [] = .ok r ∧ r.status = slit "FAIL" :=
  claim_C2 Option.none [] [] rfl (Or.inl rfl)

/-- C4: ending output capture returns empty text when both buffers are
empty, and in general returns the (possibly amended) stdout text followed
by the (possibly amended) stderr text, where the amendments — stdout forced
to end with a line break, stderr prefixed with `*INFO* ` unless it already
starts with a recognized severity marker — apply only when both buffers are
non-empty. -/
theorem claim_C4 :
    mergeStdStreams [] [] = []
    ∧ ∀ stdout stderr, mergeStdStreams stdout stderr = mergeStdStreamsSpec stdout stderr := by
  refine ⟨rfl, fun stdout stderr => ?_⟩
  by_cases h1 : stdout = [] <;> by_cases h2 : stderr = [] <;>
    simp [mergeStdStreams, mergeStdStreamsSpec, h1, h2]

/-- C5: the displayed error text is the bare type name when the message is
empty, the message alone when the type is generic (`AssertionError`,
`RuntimeError`, `Exception`) or the instance carries `ROBOT_SUPPRESS_NAME`,
and `TypeName: message` otherwise; in particular `RuntimeError("boom")`
displays `boom`, and a custom `MyError("bad")` displays `MyError: bad`.
(The general statement assumes the message contains no binary control
characters, i.e. is kept as text by `_handle_binary_result`.) -/
theorem claim_C5 :
    (∀ e : PyExc, hasBinaryCtl e.message = false →
       get_error_message e = .ok (.str (if e.message.isEmpty then e.typeName
         else if e.isGeneric || e.suppressName then e.message
         else e.typeName ++ [58, 32] ++ e.message)))
    ∧ get_error_message boomExc = .ok (.str (slit "boom"))
    ∧ get_error_message myErrorExc = .ok (.str (slit "MyError: bad")) :=
  ⟨gem_of_noCtl, rfl, rfl⟩

/-- Witness for C5 at a concrete input: the `MyError("bad")` example. -/
theorem claim_C5_witness :
    get_error_message myErrorExc = .ok (.str (if myErrorExc.message.isEmpty
      then myErrorExc.typeName
      else if myErrorExc.isGeneric || myErrorExc.suppressName then myErrorExc.message
      else myErrorExc.typeName ++ [58, 32] ++ myErrorExc.message)) :=
  claim_C5.1 myErrorExc rfl

/-- C9: after every `run_keyword` invocation — whether the keyword
returned, raised, or its result failed to normalize, and whatever streams
were installed when capture began — the process-wide standard output and
standard error targets are `sys.__stdout__` and `sys.__stderr__`, and the
two capture buffers allocated for the invocation are closed. -/
theorem claim_C9 (kw : Option Keyword) (args : List PyVal)
    (kwargs : List (Str × PyVal)) (s : StdState) :
    (run_keyword_st kw args kwargs s).2.stdoutTarget = Stream.dunderStdout
    ∧ (run_keyword_st kw args kwargs s).2.stderrTarget = Stream.dunderStderr
    ∧ s.nextId ∈ (run_keyword_st kw args kwargs s).2.closed
    ∧ (s.nextId + 1) ∈ (run_keyword_st kw args kwargs s).2.closed := by
  refine ⟨rfl, rfl, ?_, ?_⟩ <;>
    simp [run_keyword_st, intercept_std_streams, restore_std_streams_state, closeIds]

/-- C3 counterexample: under the Python 3 interpreter the source actually
runs on, a pure-ASCII bytes value with no control characters (`b"abc"`) is
classified binary-unsafe (`isinstance(result, bytes)` short-circuits the
check), while the claim's classification — raw bytes with non-ASCII
content, or a control character outside tab/newline/carriage-return —
calls it safe. -/
theorem claim_C3_counterexample :
    contains_binary true (.bytes (slit "abc")) = true
    ∧ specBinaryUnsafe (.bytes (slit "abc")) = false := ⟨rfl, rfl⟩

/-- C3 (amended): the claimed classification is exactly the source's
Python 2 branch; under Python 3 every bytes value is binary-unsafe while
text is classified by the claimed control-character rule.  Encoding of an
unsafe value behaves as claimed: unsafe text that is pure ASCII is encoded
and wrapped as a binary blob, unsafe text with non-ASCII content raises the
hard `Cannot represent ... as binary.` failure, unsafe bytes are wrapped
directly, and a safe value passes through unchanged. -/
theorem claim_C3 :
    (∀ v, contains_binary false v = specBinaryUnsafe v)
    ∧ (∀ s, contains_binary true (.str s) = hasBinaryCtl s)
    ∧ (∀ b, contains_binary true (.bytes b) = true)
    ∧ (∀ s, hasBinaryCtl s = true → allAscii s = true →
        handle_binary_result (.str s) = .ok (.binary s))
    ∧ (∀ s, hasBinaryCtl s = true → allAscii s = false →
        handle_binary_result (.str s) = .error (valueErrorCannotRepresent s))
    ∧ (∀ b, handle_binary_result (.bytes b) = .ok (.binary b))
    ∧ (∀ v, contains_binary true v = false → handle_binary_result v = .ok v) := by
  refine ⟨fun v => ?_, fun s => rfl, fun b => rfl, fun s h1 h2 => ?_, fun s h1 h2 => ?_,
    fun b => ?_, fun v h => ?_⟩
  · cases v <;> rfl
  · simp [handle_binary_result, contains_binary, h1, h2]
  · simp [handle_binary_result, contains_binary, h1, h2]
  · simp [handle_binary_result, contains_binary]
  · simp [handle_binary_result, h]

/-- Witness for C3 at concrete inputs: `"\x00\xe9"` is unsafe text with
non-ASCII content, and encoding it raises the hard failure. -/
theorem claim_C3_witness :
    handle_binary_result (.str [0, 233]) = .error (valueErrorCannotRepresent [0, 233]) :=
  claim_C3.2.2.2.2.1 [0, 233] rfl rfl

/-- C6 counterexample: a keyword returning the empty string `''` — not
`None` — also produces an outcome without the `return` key (the `_add`
default comparison `value != ''` drops it), so the key is not omitted
*only* for `None` returns. -/
theorem claim_C6_counterexample :
    run_keyword (some emptyStrKw) [] [] = .ok { status := slit "PASS" }
    ∧ (PyVal.str [] = PyVal.pyNone → False) :=
  ⟨rfl, fun h => PyVal.noConfusion h⟩

/-- C6 (amended): on a successful invocation the normalized return value
is attached under the `return` key, and the key is omitted exactly when
the normalized value is the empty string — which is in particular the case
when the original return value was `None` (whose normalization is empty
text); a keyword printing `hello` and returning `None` yields
`{status: PASS, output: "hello\n"}` with no `return` key. -/
theorem claim_C6 :
    (∀ (kw : Option Keyword) (args : List PyVal) (kwargs : List (Str × PyVal))
       (rv nv : PyVal) (r : ResultData),
       (dispatch_effect kw args kwargs).result = .ok rv →
       handle_return_value rv = .ok nv →
       run_keyword kw args kwargs = .ok r →
       r.ret = (if eqEmptyStr nv then Option.none else some nv)
       ∧ (rv = PyVal.pyNone → r.ret = Option.none))
    ∧ run_keyword (some helloNoneKw) [] [] =
        .ok { status := slit "PASS", output := some (.str (slit "hello" ++ [10])) } := by
  refine ⟨fun kw args kwargs rv nv r heff hn h => ?_, rfl⟩
  rw [run_keyword_as_effect] at h
  obtain ⟨-, h2, -⟩ := rke_ok_spec _ _ h
  have hret := (h2 rv nv heff hn).2
  refine ⟨hret, fun hnone => ?_⟩
  subst hnone
  have : nv = PyVal.str [] := by
    have h0 : handle_return_value PyVal.pyNone = .ok (.str []) := rfl
    rw [h0] at hn
    exact ((Except.ok.injEq _ _).mp hn).symm
  subst this
  rw [hret]
  rfl

/-- Witness for C6 at a concrete input: the print-hello-return-None
keyword has no `return` key in its outcome. -/
theorem claim_C6_witness :
    ({ status := slit "PASS",
       output := some (.str (slit "hello" ++ [10])) } : ResultData).ret = Option.none
    ∧ (PyVal.pyNone = PyVal.pyNone →
       ({ status := slit "PASS",
          output := some (.str (slit "hello" ++ [10])) } : ResultData).ret = Option.none) :=
  (claim_C6.1 (some helloNoneKw) [] [] PyVal.pyNone (PyVal.str [])
      { status := slit "PASS", output := some (.str (slit "hello" ++ [10])) }
      rfl rfl rfl).imp (fun h => h.trans rfl) (fun h => fun _ => h rfl)

theorem arguments_eq_spec (k : Keyword) : arguments_from_kw k = argumentsSpec k := by
  simp only [arguments_from_kw, argumentsSpec]
  cases hd : k.defaults with
  | nil =>
      cases k.varargsName <;> cases k.varkwName <;>
        simp [List.take_length, List.zipWith_nil_right, List.drop_length,
          List.append_assoc]
  | cons d ds =>
      cases k.varargsName <;> cases k.varkwName <;> simp [List.append_assoc]

/-- C8: `get_keyword_arguments` returns the empty sequence when the name
resolves to no callable; otherwise it renders the introspected signature —
`self` dropped for bound methods, defaulted parameters as `name=default`,
then `*varargs` and `**kwargs` — and in particular `b(x, y=1)` yields
`["x", "y=1"]`. -/
theorem claim_C8 :
    (∀ (rl : RemoteLib) (name : Str), get_keyword rl name = Option.none →
        get_keyword_arguments rl name = [])
    ∧ (∀ k : Keyword, arguments_from_kw k = argumentsSpec k)
    ∧ get_keyword_arguments exampleLib (slit "b") = [slit "x", slit "y=1"] := by
  refine ⟨fun rl name h => ?_, arguments_eq_spec, rfl⟩
  simp [get_keyword_arguments, h]

/-- Witness for C8 at a concrete input: an unresolvable name gives `[]`. -/
theorem claim_C8_witness : get_keyword_arguments emptyLib (slit "nope") = [] :=
  claim_C8.1 emptyLib (slit "nope") rfl

theorem not_mem_scan (lib : Library) (stop : Option Keyword) (name : Str)
    (hund : headIsUnderscore name = true) (hne : name ≠ stopName) :
    PyVal.str name ∉
      ((scanNames lib).map PyVal.str ++ stopEntry { library := lib, stop := stop }) := by
  intro hmem
  rcases List.mem_append.mp hmem with hm | hm
  · obtain ⟨nm, hnm, heq⟩ := List.mem_map.mp hm
    injection heq with heq2
    subst heq2
    obtain ⟨p, hp, hp1⟩ := List.mem_map.mp hnm
    have hpred := (List.mem_filter.mp hp).2
    rw [Bool.and_eq_true] at hpred
    have h1 := hpred.1
    rw [hp1, hund] at h1
    exact Bool.noConfusion h1
  · unfold stopEntry at hm
    split_ifs at hm
    · have := List.mem_singleton.mp hm
      injection this with h2
      exact hne h2
    · simp at hm

/-- C10: keyword resolution is not restricted to the enumerated names —
an underscore-prefixed function attribute of the hosted library resolves
through `_get_keyword` and `run_keyword` executes it, even though
`get_keyword_names` (with no custom enumerator on the library) excludes
every underscore-prefixed name from its listing. -/
theorem claim_C10 (lib : Library) (stop : Option Keyword) (name : Str) (k : Keyword)
    (args : List PyVal) (kwargs : List (Str × PyVal))
    (hattr : lookupAttr lib name = some (.func k))
    (hund : headIsUnderscore name = true)
    (hscan : usesDefaultScan lib = true) :
    get_keyword { library := lib, stop := stop } name = some k
    ∧ rl_run_keyword { library := lib, stop := stop } name args kwargs
        = run_keyword (some k) args kwargs
    ∧ ∀ names, get_keyword_names { library := lib, stop := stop } = .ok names →
        PyVal.str name ∉ names := by
  have hne : name ≠ stopName := by
    intro h
    rw [h] at hund
    exact absurd hund (by decide)
  have hget : get_keyword { library := lib, stop := stop } name = some k := by
    simp only [get_keyword, if_neg hne, hattr]
  refine ⟨hget, by simp only [rl_run_keyword, hget], fun names hnames => ?_⟩
  simp only [get_keyword_names] at hnames
  cases he : getEnumerator lib with
  | none =>
      rw [he] at hnames
      cases hnames
      exact not_mem_scan lib stop name hund hne
  | some a =>
      cases a with
      | plain =>
          rw [he] at hnames
          cases hnames
          exact not_mem_scan lib stop name hund hne
      | func k2 =>
          rw [usesDefaultScan, he] at hscan
          exact Bool.noConfusion hscan

/-- Witness for C10 at a concrete input: the `_hidden` keyword of
`hiddenLib` resolves and dispatches, and is not listed. -/
theorem claim_C10_witness :
    get_keyword { library := hiddenLib, stop := Option.none } (slit "_hidden")
        = some hiddenKw
    ∧ rl_run_keyword { library := hiddenLib, stop := Option.none } (slit "_hidden") [] []
        = run_keyword (some hiddenKw) [] []
    ∧ ∀ names, get_keyword_names { library := hiddenLib, stop := Option.none } = .ok names →
        PyVal.str (slit "_hidden") ∉ names :=
  claim_C10 hiddenLib Option.none (slit "_hidden") hiddenKw [] [] rfl rfl rfl

theorem specKey_idem (k : PyVal) : specKey (specKey k) = specKey k := by
  cases k <;> rfl

theorem safeKey_specKey (k : PyVal) (h : safeKey k = true) :
    safeKey (specKey k) = true := by
  cases k with
  | str s => exact h
  | pyInt n => simp [specKey, safeKey, pyIntStr_noCtl]
  | _ => exact absurd h (by simp [safeKey])

theorem strFn_specKey (k : PyVal) (h : safeKey k = true) :
    strFn true k = .ok (specKey k) := by
  cases k with
  | str s =>
      have hs : hasBinaryCtl s = false := by
        simpa [safeKey] using h
      simp only [strFn, if_true, specKey]
      exact hbr_str_of_noCtl s hs
  | pyInt n =>
      show handle_binary_result (.str (pyStr (.pyInt n))) = .ok (.str (pyIntStr n))
      exact hbr_str_of_noCtl _ (pyIntStr_noCtl n)
  | _ => exact absurd h (by simp [safeKey])

theorem pyKeyEq_symm (a b : PyVal) : pyKeyEq a b = pyKeyEq b a := by
  cases a <;> cases b <;> simp [pyKeyEq, eq_comm]

theorem insertPair_fresh (m : List (PyVal × PyVal)) (k v : PyVal)
    (h : m.any (fun p => pyKeyEq p.1 k) = false) : insertPair m k v = m ++ [(k, v)] := by
  simp [insertPair, h]

theorem dictFromPairs_aux (ps : List (PyVal × PyVal)) :
    ∀ acc, (∀ p ∈ ps, acc.any (fun q => pyKeyEq q.1 p.1) = false) →
      pairwiseFreshKeys (ps.map (fun p => p.1)) = true →
      ps.foldl (fun m p => insertPair m p.1 p.2) acc = acc ++ ps := by
  induction ps with
  | nil =>
      intro acc _ _
      simp
  | cons hd tl ih =>
      intro acc hacc hfresh
      obtain ⟨k, v⟩ := hd
      simp only [List.map_cons, pairwiseFreshKeys, Bool.and_eq_true] at hfresh
      rw [List.foldl_cons]
      rw [show insertPair acc (k, v).1 (k, v).2 = acc ++ [(k, v)] from
        insertPair_fresh acc k v (hacc (k, v) (by simp))]
      rw [ih (acc ++ [(k, v)]) ?_ hfresh.2]
      · simp
      · intro p hp
        rw [List.any_append, hacc p (by simp [hp])]
        simp only [Bool.false_or, List.any_cons, List.any_nil, Bool.or_false]
        have hnot := hfresh.1
        rw [Bool.not_eq_true', List.any_eq_false] at hnot
        have h2 := hnot p.1 (List.mem_map_of_mem _ hp)
        rw [pyKeyEq_symm]
        exact Bool.eq_false_iff.mpr h2

theorem dictFromPairs_id (ps : List (PyVal × PyVal))
    (h : pairwiseFreshKeys (ps.map (fun p => p.1)) = true) : dictFromPairs ps = ps := by
  have := dictFromPairs_aux ps [] (fun p _ => rfl) h
  simpa [dictFromPairs] using this

theorem specNormPairs_keys (kvs : List (PyVal × PyVal)) :
    (specNormPairs kvs).map (fun p => p.1) = kvs.map (fun p => specKey p.1) := by
  induction kvs with
  | nil => rfl
  | cons hd tl ih =>
      obtain ⟨k, v⟩ := hd
      simp [specNormPairs, ih]

theorem specNormPairs_keys_idem (kvs : List (PyVal × PyVal)) :
    (specNormPairs kvs).map (fun p => specKey p.1) = kvs.map (fun p => specKey p.1) := by
  induction kvs with
  | nil => rfl
  | cons hd tl ih =>
      obtain ⟨k, v⟩ := hd
      simp [specNormPairs, ih, specKey_idem]

mutual

theorem hrv_safe (v : PyVal) (h : safeTree v = true) :
    handle_return_value v = .ok (specNorm v) := by
  match v with
  | .str s =>
      have hs : hasBinaryCtl s = false := by
        simpa [safeTree] using h
      rw [handle_return_value]
      exact hbr_str_of_noCtl s hs
  | .pyInt n => rfl
  | .pyBool b => rfl
  | .pyFloat s => rfl
  | .list xs =>
      have hx : safeTreeList xs = true := by
        rw [safeTree] at h
        exact h
      rw [handle_return_value, hrvList_safe xs hx]
      rfl
  | .dict kvs =>
      rw [safeTree, Bool.and_eq_true] at h
      rw [handle_return_value, hrvPairs_safe kvs h.1]
      show Except.ok (PyVal.dict (dictFromPairs (specNormPairs kvs))) = _
      rw [dictFromPairs_id (specNormPairs kvs) (by rw [specNormPairs_keys]; exact h.2)]
      rfl
  | .pyNone => exact absurd h (by simp [safeTree])
  | .bytes b => exact absurd h (by simp [safeTree])
  | .binary b => exact absurd h (by simp [safeTree])
  | .obj s => exact absurd h (by simp [safeTree])

theorem hrvList_safe (xs : List PyVal) (h : safeTreeList xs = true) :
    handleReturnList xs = .ok (specNormList xs) := by
  match xs with
  | [] => rfl
  | v :: vs =>
      rw [safeTreeList, Bool.and_eq_true] at h
      rw [handleReturnList, hrv_safe v h.1, hrvList_safe vs h.2]
      rfl

theorem hrvPairs_safe (ps : List (PyVal × PyVal)) (h : safeTreePairs ps = true) :
    handleReturnPairs ps = .ok (specNormPairs ps) := by
  match ps with
  | [] => rfl
  | (k, v) :: rest =>
      rw [safeTreePairs] at h
      simp only [Bool.and_eq_true] at h
      rw [handleReturnPairs, strFn_specKey k h.1.1, hrv_safe v h.1.2,
        hrvPairs_safe rest h.2]
      rfl

end

mutual

theorem safeTree_specNorm (v : PyVal) (h : safeTree v = true) :
    safeTree (specNorm v) = true := by
  match v with
  | .str s => exact h
  | .pyInt n => exact h
  | .pyBool b => exact h
  | .pyFloat s => exact h
  | .list xs =>
      rw [specNorm, safeTree]
      rw [safeTree] at h
      exact safeTreeList_specNorm xs h
  | .dict kvs =>
      rw [safeTree, Bool.and_eq_true] at h
      rw [specNorm, safeTree, Bool.and_eq_true]
      refine ⟨safeTreePairs_specNorm kvs h.1, ?_⟩
      rw [specNormPairs_keys_idem]
      exact h.2
  | .pyNone => exact absurd h (by simp [safeTree])
  | .bytes b => exact absurd h (by simp [safeTree])
  | .binary b => exact absurd h (by simp [safeTree])
  | .obj s => exact absurd h (by simp [safeTree])

theorem safeTreeList_specNorm (xs : List PyVal) (h : safeTreeList xs = true) :
    safeTreeList (specNormList xs) = true := by
  match xs with
  | [] => rfl
  | v :: vs =>
      rw [safeTreeList, Bool.and_eq_true] at h
      rw [specNormList, safeTreeList, Bool.and_eq_true]
      exact ⟨safeTree_specNorm v h.1, safeTreeList_specNorm vs h.2⟩

theorem safeTreePairs_specNorm (ps : List (PyVal × PyVal)) (h : safeTreePairs ps = true) :
    safeTreePairs (specNormPairs ps) = true := by
  match ps with
  | [] => rfl
  | (k, v) :: rest =>
      rw [safeTreePairs] at h
      simp only [Bool.and_eq_true] at h
      rw [specNormPairs, safeTreePairs]
      simp only [Bool.and_eq_true]
      exact ⟨⟨safeKey_specKey k h.1.1, safeTree_specNorm v h.1.2⟩,
        safeTreePairs_specNorm rest h.2⟩

end

mutual

theorem specNorm_idem (v : PyVal) : specNorm (specNorm v) = specNorm v := by
  match v with
  | .list xs =>
      rw [specNorm, specNorm, specNormList_idem]
  | .dict kvs =>
      rw [specNorm, specNorm, specNormPairs_idem]
  | .str s => rfl
  | .pyInt n => rfl
  | .pyBool b => rfl
  | .pyFloat s => rfl
  | .pyNone => rfl
  | .bytes b => rfl
  | .binary b => rfl
  | .obj s => rfl

theorem specNormList_idem (xs : List PyVal) :
    specNormList (specNormList xs) = specNormList xs := by
  match xs with
  | [] => rfl
  | v :: vs =>
      rw [specNormList, specNormList, specNorm_idem, specNormList_idem]

theorem specNormPairs_idem (ps : List (PyVal × PyVal)) :
    specNormPairs (specNormPairs ps) = specNormPairs ps := by
  match ps with
  | [] => rfl
  | (k, v) :: rest =>
      rw [specNormPairs, specNormPairs, specKey_idem, specNorm_idem,
        specNormPairs_idem]

end

/-- C7 counterexample: normalization is not idempotent on the code.  A
bytes value with a high byte (`b"\xe9"`) normalizes to a `Binary` wrapper,
but normalizing that already-normalized value again yields the latin-1
decoded *text* (`Binary` is not iterable, so `_str` applies `str()`, whose
result `"é"` contains no control character and stays text) — a different
value. -/
theorem claim_C7_counterexample :
    handle_return_value (.bytes [233]) = .ok (.binary [233])
    ∧ handle_return_value (.binary [233]) = .ok (.str [233])
    ∧ (PyVal.binary [233] = PyVal.str [233] → False) :=
  ⟨rfl, rfl, fun h => PyVal.noConfusion h⟩

/-- C7 (amended): on every nested mapping/sequence structure whose leaves
are binary-safe text, integers, booleans or floats and whose mapping keys
are safe (binary-safe text or integers) with pairwise-distinct normalized
forms, normalization produces the identical structure with keys coerced to
text and leaves unchanged, and it is idempotent there: normalizing the
already-normalized value returns it unchanged. -/
theorem claim_C7 (v : PyVal) (h : safeTree v = true) :
    handle_return_value v = .ok (specNorm v)
    ∧ handle_return_value (specNorm v) = .ok (specNorm v) := by
  refine ⟨hrv_safe v h, ?_⟩
  have h2 := hrv_safe (specNorm v) (safeTree_specNorm v h)
  rw [specNorm_idem] at h2
  exact h2

/-- Witness for C7 at a concrete input: the specification's round-trip
example structure. -/
theorem claim_C7_witness :
    handle_return_value exNested = .ok (specNorm exNested)
    ∧ handle_return_value (specNorm exNested) = .ok (specNorm exNested) :=
  claim_C7 exNested rfl

end RobotRemote
